import Mathlib

/-!
Verification of the Workflow Graph Synchronization Engine
(frontend flow service, the save_flow stored procedure, and the
realtime reconciliation handlers of the Flow page).

The development shallowly embeds:
  * the relational rows of db_setup.sql (projects, tools, nodes, edges),
  * the save_flow plpgsql procedure together with the triggers
    create_start_node_for_project and prevent_start_node_deletion,
  * the JS service layer (flowService.js: saveFlow, updateNode,
    isStartNode, deleteNode, deleteEdge, fetch functions),
  * the Flow page reconciliation handlers (the subscribeToNodes and
    subscribeToEdges callbacks) and handleSave.

Conventions of the embedding:
  * SQL FLOAT positions are modelled as Int: every claim under study only
    stores, copies and compares positions (the literals 50, 50), no float
    arithmetic occurs.
  * Timestamps are Nat; NOW() is passed in as an explicit `now` argument.
  * A fallible call returns `Except String _`; a Supabase tagged result
    `{ data, error }` is modelled by the `FetchResult` structure.
  * JSONB tool headers and body are omitted: no claim mentions them.
-/

/-- A row of the `tools` table (headers and body JSONB omitted). -/
structure ToolRow where
  id : String
  name : String
  endpoint : String
  method : String
deriving DecidableEq

/-- A row of the `projects` table. -/
structure ProjectRow where
  id : String
  name : String
  description : String
  updated_at : Nat
deriving DecidableEq

/-- A row of the `nodes` table. -/
structure NodeRow where
  id : String
  project_id : String
  title : String
  prompt : String
  node_type : String
  tool_id : Option String
  position_x : Int
  position_y : Int
  created_at : Nat
  updated_at : Nat
deriving DecidableEq

/-- A row of the `edges` table. -/
structure EdgeRow where
  id : String
  project_id : String
  source_id : String
  target_id : String
  label : String
  prompt : String
  created_at : Nat
  updated_at : Nat
deriving DecidableEq

/-- The durable store: the four tables of db_setup.sql. -/
structure Store where
  projects : List ProjectRow
  tools : List ToolRow
  nodes : List NodeRow
  edges : List EdgeRow
deriving DecidableEq

/-- One element of the p_nodes JSONB array handed to save_flow: the fields
the procedure reads out of each payload object. -/
structure NodeInput where
  id : String
  project_id : String
  title : String
  prompt : String
  node_type : String
  tool_id : Option String
  position_x : Int
  position_y : Int
deriving DecidableEq

/-- One element of the p_edges JSONB array handed to save_flow. -/
structure EdgeInput where
  id : String
  project_id : String
  source_id : String
  target_id : String
  label : String
  prompt : String
deriving DecidableEq

/-- The start-node existence check: SELECT EXISTS over the p_nodes
elements whose node_type field is the string start (save_flow), which is
also the client-side some-check of the JS saveFlow. -/
def hasStartNode (p_nodes : List NodeInput) : Bool :=
  p_nodes.any (fun n => decide (n.node_type = "start"))

/-- FK check for nodes.tool_id REFERENCES tools(id); NULL always passes. -/
def toolExists (st : Store) : Option String → Bool
  | none => true
  | some tid => st.tools.any (fun t => decide (t.id = tid))

/-- FK check for project_id REFERENCES projects(id). -/
def projectExists (st : Store) (pid : String) : Bool :=
  st.projects.any (fun p => decide (p.id = pid))

/-- The `DO UPDATE SET` clause of the save_flow node upsert: the listed
mutable columns (not id, project_id, created_at) are overwritten from the
excluded row and updated_at is bumped to NOW(). -/
def upsertRowUpdate (now : Nat) (u : NodeInput) (n : NodeRow) : NodeRow :=
  { n with title := u.title, prompt := u.prompt, node_type := u.node_type,
           tool_id := u.tool_id, position_x := u.position_x,
           position_y := u.position_y, updated_at := now }

/-- The insert arm of the save_flow node upsert: a fresh row carrying the
payload fields with NOW() for both timestamps. -/
def upsertRowInsert (now : Nat) (u : NodeInput) : NodeRow :=
  { id := u.id, project_id := u.project_id, title := u.title, prompt := u.prompt,
    node_type := u.node_type, tool_id := u.tool_id, position_x := u.position_x,
    position_y := u.position_y, created_at := now, updated_at := now }

/-- One row of the save_flow node upsert
(`INSERT ... ON CONFLICT (id) DO UPDATE SET ...`): on an id conflict the
row is rewritten by `upsertRowUpdate`; otherwise `upsertRowInsert` is
appended. The tool_id FK is checked on both paths (the column is written
either way); the project_id FK only on insert (the update does not write
that column). A violated FK raises, aborting the procedure. -/
def nodeUpsertStep (st : Store) (now : Nat) (tbl : List NodeRow) (u : NodeInput) :
    Except String (List NodeRow) :=
  if toolExists st u.tool_id then
    if tbl.any (fun n => decide (n.id = u.id)) then
      .ok (tbl.map (fun n => if n.id = u.id then upsertRowUpdate now u n else n))
    else if projectExists st u.project_id then
      .ok (tbl ++ [upsertRowInsert now u])
    else .error "nodes violates foreign key constraint nodes_project_id_fkey"
  else .error "nodes violates foreign key constraint nodes_tool_id_fkey"

/-- One row of the save_flow edge insert (a plain INSERT, no ON CONFLICT
clause): an id colliding with a surviving or just-inserted edge raises a
unique-constraint error; the project_id FK is checked. -/
def edgeInsertStep (st : Store) (now : Nat) (tbl : List EdgeRow) (u : EdgeInput) :
    Except String (List EdgeRow) :=
  if tbl.any (fun e => decide (e.id = u.id)) then
    .error "duplicate key value violates unique constraint edges_pkey"
  else if projectExists st u.project_id then
    .ok (tbl ++ [{ id := u.id, project_id := u.project_id, source_id := u.source_id,
                   target_id := u.target_id, label := u.label, prompt := u.prompt,
                   created_at := now, updated_at := now }])
  else .error "edges violates foreign key constraint edges_project_id_fkey"

/-- The body of the save_flow stored procedure, executed statement by
statement on intermediate states: the start-node existence check, the
delete of the non-start nodes and of all edges of the project, the node
upsert, the edge insert, and the bump of the project updated_at column.
Postgres rejects a multi-row INSERT whose ON CONFLICT clause would affect
one row twice, so duplicate payload node ids raise up front. The
prevent_start_node_deletion trigger never fires here: the delete filter
keeps every node_type = start row. An error value is an uncaught plpgsql
exception. -/
def save_flow_run (st : Store) (pid : String) (pn : List NodeInput)
    (pe : List EdgeInput) (now : Nat) : Except String Store :=
  if hasStartNode pn = false then .error "Flow must include a start node"
  else if ¬ (pn.map (fun u => u.id)).Nodup then
    .error "ON CONFLICT DO UPDATE command cannot affect row a second time"
  else
    match pn.foldlM (nodeUpsertStep st now)
        (st.nodes.filter
          (fun n => !(decide (n.project_id = pid) && decide (n.node_type ≠ "start")))) with
    | .error e => .error e
    | .ok nodes2 =>
      match pe.foldlM (edgeInsertStep st now)
          (st.edges.filter (fun e => !(decide (e.project_id = pid)))) with
      | .error e => .error e
      | .ok edges2 =>
        .ok { st with
              projects := st.projects.map
                (fun p => if p.id = pid then { p with updated_at := now } else p),
              nodes := nodes2, edges := edges2 }

/-- The save_flow RPC as observed by a caller. A plpgsql function body runs
inside a single transaction: an uncaught exception rolls every statement
back, so the caller sees either the fully updated store or the original
one, never an intermediate state. -/
def save_flow (st : Store) (pid : String) (pn : List NodeInput)
    (pe : List EdgeInput) (now : Nat) : Except String Unit × Store :=
  match save_flow_run st pid pn pe now with
  | .ok st2 => (.ok (), st2)
  | .error e => (.error e, st)

/-- The row inserted by the create_start_node_for_project trigger for a
freshly inserted project. -/
def create_start_node_for_project (pid : String) (now : Nat) : NodeRow :=
  { id := "start_" ++ pid, project_id := pid, title := "Start",
    prompt := "This is the starting point of your flow", node_type := "start",
    tool_id := none, position_x := 50, position_y := 50,
    created_at := now, updated_at := now }

/-- createProject (projectService.js) together with the AFTER INSERT
trigger: inserting the project row fires create_start_node_for_project;
a primary key collision on either insert aborts the whole statement. -/
def createProject (st : Store) (p : ProjectRow) (now : Nat) : Except String Store :=
  if st.projects.any (fun q => decide (q.id = p.id)) then
    .error "duplicate key value violates unique constraint projects_pkey"
  else if st.nodes.any (fun n => decide (n.id = "start_" ++ p.id)) then
    .error "duplicate key value violates unique constraint nodes_pkey"
  else .ok { st with projects := st.projects ++ [p],
                     nodes := st.nodes ++ [create_start_node_for_project p.id now] }

/-- A Supabase tagged result as returned by the service helpers: either a
data payload or an error message, never an exception thrown to the caller.
Modelled from the spec: handleSupabaseError (lib/supabase.js is not in the
sources; only its callers are) turns a thrown store error into the tagged
`{ error }` member carrying the message verbatim, as required by the
error-propagation contract of the spec. -/
structure FetchResult (α : Type) where
  data : Option α
  error : Option String
deriving DecidableEq

/-- A node joined with its referenced tool, the shape produced by the
`select(*, tool:tools(*))` read of fetchNodesByProject. -/
structure JoinedNode where
  node : NodeRow
  tool : Option ToolRow
deriving DecidableEq

/-- Resolve the read-side tool join for one node row. -/
def lookupTool (st : Store) (tid : Option String) : Option ToolRow :=
  tid.bind (fun t => st.tools.find? (fun tool => decide (tool.id = t)))

/-- fetchNodesByProject (flowService.js): the project rows with the tool
inlined, or a tagged transport error (the `fail` argument stands for the
outcome of the network round trip). -/
def fetchNodesByProject (st : Store) (pid : String) (fail : Option String) :
    FetchResult (List JoinedNode) :=
  match fail with
  | some e => { data := none, error := some e }
  | none =>
    { data := some ((st.nodes.filter (fun n => decide (n.project_id = pid))).map
        (fun n => { node := n, tool := lookupTool st n.tool_id })),
      error := none }

/-- fetchEdgesByProject (flowService.js). -/
def fetchEdgesByProject (st : Store) (pid : String) (fail : Option String) :
    FetchResult (List EdgeRow) :=
  match fail with
  | some e => { data := none, error := some e }
  | none => { data := some (st.edges.filter (fun e => decide (e.project_id = pid))),
              error := none }

/-- isStartNode (flowService.js): reads the node_type of the row via
`.single()`, which errors unless exactly one row matches; every error path
is caught, logged and turned into `false`. -/
def isStartNode (st : Store) (nodeId : String) : Bool :=
  match st.nodes.filter (fun n => decide (n.id = nodeId)) with
  | [n] => decide (n.node_type = "start")
  | _ => false

/-- The update object handed to the JS updateNode: a field is `none` when
absent from the object. `tool_id` can be set to NULL, hence the nested
Option. -/
structure NodeUpdates where
  node_type : Option String := none
  title : Option String := none
  prompt : Option String := none
  tool_id : Option (Option String) := none
  position_x : Option Int := none
  position_y : Option Int := none
deriving DecidableEq

/-- JS truthiness of a possibly absent string: present and non-empty. -/
def truthyStr : Option String → Bool
  | some s => decide (s ≠ "")
  | none => false

/-- Apply a Supabase `.update(updates)` object to one row: each present
field overwrites the column, absent fields are untouched. -/
def applyUpdates (n : NodeRow) (u : NodeUpdates) : NodeRow :=
  { n with node_type := u.node_type.getD n.node_type,
           title := u.title.getD n.title,
           prompt := u.prompt.getD n.prompt,
           tool_id := u.tool_id.getD n.tool_id,
           position_x := u.position_x.getD n.position_x,
           position_y := u.position_y.getD n.position_y }

/-- updateNode (flowService.js): when `updates.node_type` is truthy and the
target is a start node, the node_type field is deleted from the update
object before it is sent; the update then rewrites every matching row and
`.single()` returns the row (an error when no row matches). -/
def updateNode (st : Store) (nodeId : String) (updates : NodeUpdates) :
    Except String NodeRow × Store :=
  let updates2 := if truthyStr updates.node_type && isStartNode st nodeId then
      { updates with node_type := none }
    else updates
  let nodes2 := st.nodes.map (fun m => if m.id = nodeId then applyUpdates m updates2 else m)
  match st.nodes.filter (fun n => decide (n.id = nodeId)) with
  | [n] => (.ok (applyUpdates n updates2), { st with nodes := nodes2 })
  | _ => (.error "JSON object requested, multiple (or no) rows returned", st)

/-- deleteNode (flowService.js) over the store, including the
prevent_start_node_deletion BEFORE DELETE trigger as the storage-level
last line of defense: the service refuses when isStartNode says so, the
trigger raises if a matched row is a start node, and otherwise the
matching rows are removed. `.ok ()` is the `{ success: true }` result. -/
def deleteNode (st : Store) (nodeId : String) : Except String Unit × Store :=
  if isStartNode st nodeId then (.error "Cannot delete start node", st)
  else if st.nodes.any (fun n => decide (n.id = nodeId) && decide (n.node_type = "start")) then
    (.error "Cannot delete start node", st)
  else (.ok (), { st with nodes := st.nodes.filter (fun n => !(decide (n.id = nodeId))) })

/-- deleteEdge (flowService.js): an unconditional delete of the matching
rows; `.ok ()` is the `{ success: true }` result. -/
def deleteEdge (st : Store) (edgeId : String) : Except String Unit × Store :=
  (.ok (), { st with edges := st.edges.filter (fun e => !(decide (e.id = edgeId))) })

deriving instance DecidableEq for Except

/-- The JS saveFlow outcome, together with how many times the save_flow
RPC was invoked during the call (to make retries observable). -/
structure SaveOutcome where
  result : Except String Unit
  store : Store
  rpcCalls : Nat
deriving DecidableEq

/-- saveFlow (flowService.js): rejects client-side when no supplied node
has node_type start, without contacting the store; otherwise invokes the
save_flow RPC exactly once and surfaces its result verbatim. -/
def saveFlow (st : Store) (pid : String) (nodes : List NodeInput)
    (edges : List EdgeInput) (now : Nat) : SaveOutcome :=
  if hasStartNode nodes = false then
    { result := .error "Flow must include a start node", store := st, rpcCalls := 0 }
  else
    let r := save_flow st pid nodes edges now
    { result := r.1, store := r.2, rpcCalls := 1 }

/-- A node of the local Graph Model as the Flow page keeps it (the
ReactFlow shape: `{ id, type, position, deletable, data }`, with the
`data` object inlined field by field). `rfType` is the ReactFlow `type`
discriminator. -/
structure FlowNode where
  id : String
  rfType : String
  position_x : Int
  position_y : Int
  deletable : Bool
  title : String
  prompt : String
  node_type : String
  tool_id : Option String
  tool : Option ToolRow
deriving DecidableEq

/-- An edge of the local Graph Model (`{ id, source, target, type, data }`
with the `data` object inlined). -/
structure FlowEdge where
  id : String
  source : String
  target : String
  rfType : String
  label : String
  prompt : String
deriving DecidableEq

/-- A normalized change event delivered by a table subscription:
`payload.eventType` with `payload.new` on INSERT and UPDATE, and
`payload.old.id` on DELETE. -/
inductive ChangeEvent (α : Type) where
  | insert (new : α)
  | update (new : α)
  | delete (oldId : String)
deriving DecidableEq

/-- JS falsy-to-null normalization of an optional string
(`newRecord.tool_id || null`). -/
def falsyToNone (s : Option String) : Option String :=
  s.bind (fun t => if t = "" then none else some t)

/-- The `updatedNode` object the node subscription handler builds from
the pushed row: every field comes from `payload.new`, except the inlined
tool, which is re-resolved from the supplemental fetchNodesByProject
result (`nodeWithTool?.find(...)?.tool`, absent when the fetch failed or
found no matching node). -/
def mkReconNode (r : NodeRow) (fetched : Option (List JoinedNode)) : FlowNode :=
  let fullNode := fetched.bind (fun l => l.find? (fun jn => decide (jn.node.id = r.id)))
  { id := r.id, rfType := "customNode",
    position_x := r.position_x, position_y := r.position_y,
    deletable := !(decide (r.node_type = "start")),
    title := r.title, prompt := r.prompt,
    node_type := if r.node_type = "" then "default" else r.node_type,
    tool_id := falsyToNone r.tool_id,
    tool := fullNode.bind (fun jn => jn.tool) }

/-- The `setNodes` merge of the node subscription handler: replace every
node with the same id when one exists, append otherwise. -/
def upsertFlowNodes (prev : List FlowNode) (u : FlowNode) : List FlowNode :=
  if prev.any (fun n => decide (n.id = u.id)) then
    prev.map (fun n => if n.id = u.id then u else n)
  else prev ++ [u]

/-- The node subscription callback of the Flow page: INSERT and UPDATE
take the same branch, building `updatedNode` from the payload and the
supplemental fetch outcome and merging it; DELETE filters out the id. The
handler never throws: the supplemental fetch returns a tagged result
whose `data` member is simply absent on failure. -/
def handleNodeChange (prev : List FlowNode) (ev : ChangeEvent NodeRow)
    (fetched : FetchResult (List JoinedNode)) : List FlowNode :=
  match ev with
  | .insert r => upsertFlowNodes prev (mkReconNode r fetched.data)
  | .update r => upsertFlowNodes prev (mkReconNode r fetched.data)
  | .delete oldId => prev.filter (fun n => !(decide (n.id = oldId)))

/-- The `updatedEdge` object the edge subscription handler builds from
the pushed row. -/
def mkReconEdge (r : EdgeRow) : FlowEdge :=
  { id := r.id, source := r.source_id, target := r.target_id,
    rfType := "customEdge", label := r.label, prompt := r.prompt }

/-- The `setEdges` merge of the edge subscription handler. -/
def upsertFlowEdges (prev : List FlowEdge) (u : FlowEdge) : List FlowEdge :=
  if prev.any (fun e => decide (e.id = u.id)) then
    prev.map (fun e => if e.id = u.id then u else e)
  else prev ++ [u]

/-- The edge subscription callback of the Flow page. -/
def handleEdgeChange (prev : List FlowEdge) (ev : ChangeEvent EdgeRow) : List FlowEdge :=
  match ev with
  | .insert r => upsertFlowEdges prev (mkReconEdge r)
  | .update r => upsertFlowEdges prev (mkReconEdge r)
  | .delete oldId => prev.filter (fun e => !(decide (e.id = oldId)))

/-- The node formatting of handleSave: node_type falls back to the string
default when falsy, tool_id is normalized to null when falsy. -/
def formatNode (pid : String) (n : FlowNode) : NodeInput :=
  { id := n.id, project_id := pid, title := n.title, prompt := n.prompt,
    node_type := if n.node_type = "" then "default" else n.node_type,
    tool_id := falsyToNone n.tool_id,
    position_x := n.position_x, position_y := n.position_y }

/-- The edge formatting of handleSave; the fallback of label and prompt
to the empty string is the identity on the string-valued data the model
keeps. -/
def formatEdge (pid : String) (e : FlowEdge) : EdgeInput :=
  { id := e.id, project_id := pid, source_id := e.source, target_id := e.target,
    label := e.label, prompt := e.prompt }

/-- The observable outcome of one handleSave run: the store afterwards,
the dirty flag afterwards, the error message passed to console.error in
the catch block (none when no error), and how many save_flow RPC calls
were made. -/
structure HandleSaveOutcome where
  store : Store
  dirty : Bool
  loggedError : Option String
  rpcCalls : Nat
deriving DecidableEq

/-- handleSave of the Flow page: formats the local nodes and edges, calls
saveFlow once, and on success bumps the project updated_at via
updateProject (its result is ignored) and clears hasUnsavedChanges; on
failure the thrown error is caught and logged, and the dirty flag is left
as it was. -/
def handleSave (st : Store) (pid : String) (nodes : List FlowNode)
    (edges : List FlowEdge) (dirty : Bool) (now : Nat) : HandleSaveOutcome :=
  let out := saveFlow st pid (nodes.map (formatNode pid)) (edges.map (formatEdge pid)) now
  match out.result with
  | .error e =>
    { store := out.store, dirty := dirty, loggedError := some e, rpcCalls := out.rpcCalls }
  | .ok _ =>
    let projects2 := out.store.projects.map
      (fun p => if p.id = pid then { p with updated_at := now } else p)
    { store := { out.store with projects := projects2 }, dirty := false,
      loggedError := none, rpcCalls := out.rpcCalls }

/-! ## Helper lemmas -/

theorem save_flow_error_store (st : Store) (pid : String) (pn : List NodeInput)
    (pe : List EdgeInput) (now : Nat) (e : String)
    (hfail : (save_flow st pid pn pe now).1 = .error e) :
    (save_flow st pid pn pe now).2 = st := by
  unfold save_flow at hfail ⊢
  cases hrun : save_flow_run st pid pn pe now with
  | ok st2 => rw [hrun] at hfail; simp at hfail
  | error e2 => rfl

theorem saveFlow_error_store (st : Store) (pid : String) (pn : List NodeInput)
    (pe : List EdgeInput) (now : Nat) (e : String)
    (hfail : (saveFlow st pid pn pe now).result = .error e) :
    (saveFlow st pid pn pe now).store = st := by
  unfold saveFlow at hfail ⊢
  cases hstart : hasStartNode pn with
  | false => simp [hstart]
  | true =>
    simp only [hstart] at hfail ⊢
    simp only [Bool.true_eq_false, if_false] at hfail ⊢
    exact save_flow_error_store st pid pn pe now e hfail

theorem saveFlow_rpcCalls_le_one (st : Store) (pid : String) (pn : List NodeInput)
    (pe : List EdgeInput) (now : Nat) :
    (saveFlow st pid pn pe now).rpcCalls ≤ 1 := by
  unfold saveFlow
  cases hstart : hasStartNode pn <;> simp

theorem upsertFlowNodes_any_true (prev : List FlowNode) (u : FlowNode)
    (h : prev.any (fun n => decide (n.id = u.id)) = true) :
    upsertFlowNodes prev u = prev.map (fun n => if n.id = u.id then u else n) := by
  unfold upsertFlowNodes
  rw [if_pos h]

theorem upsertFlowNodes_any_false (prev : List FlowNode) (u : FlowNode)
    (h : prev.any (fun n => decide (n.id = u.id)) = false) :
    upsertFlowNodes prev u = prev ++ [u] := by
  unfold upsertFlowNodes
  rw [if_neg (by simp [h])]

theorem upsertFlowNodes_has_id (prev : List FlowNode) (u : FlowNode) :
    (upsertFlowNodes prev u).any (fun n => decide (n.id = u.id)) = true := by
  unfold upsertFlowNodes
  by_cases h : prev.any (fun n => decide (n.id = u.id)) = true
  · rw [if_pos h]
    obtain ⟨n, hn, hid⟩ := List.any_eq_true.mp h
    apply List.any_eq_true.mpr
    refine ⟨if n.id = u.id then u else n, List.mem_map_of_mem _ hn, ?_⟩
    rw [if_pos (of_decide_eq_true hid)]
    simp
  · rw [if_neg h]
    apply List.any_eq_true.mpr
    exact ⟨u, by simp, by simp⟩

theorem upsertFlowNodes_fix (prev : List FlowNode) (u : FlowNode) :
    ∀ n ∈ upsertFlowNodes prev u, (if n.id = u.id then u else n) = n := by
  intro n hn
  by_cases hid : n.id = u.id
  · rw [if_pos hid]
    unfold upsertFlowNodes at hn
    by_cases h : prev.any (fun m => decide (m.id = u.id)) = true
    · rw [if_pos h] at hn
      obtain ⟨m, _hm, hmn⟩ := List.mem_map.mp hn
      by_cases h2 : m.id = u.id
      · rw [if_pos h2] at hmn
        exact hmn
      · rw [if_neg h2] at hmn
        exact absurd (hmn ▸ hid) h2
    · rw [if_neg h] at hn
      rcases List.mem_append.mp hn with hcase | hcase
      · exact absurd (List.any_eq_true.mpr ⟨n, hcase, decide_eq_true hid⟩) h
      · simp only [List.mem_singleton] at hcase
        rw [hcase]
  · rw [if_neg hid]

theorem upsertFlowNodes_idem (prev : List FlowNode) (u : FlowNode) :
    upsertFlowNodes (upsertFlowNodes prev u) u = upsertFlowNodes prev u := by
  rw [upsertFlowNodes_any_true (upsertFlowNodes prev u) u (upsertFlowNodes_has_id prev u)]
  calc (upsertFlowNodes prev u).map (fun n => if n.id = u.id then u else n)
      = (upsertFlowNodes prev u).map id := List.map_congr_left (upsertFlowNodes_fix prev u)
    _ = upsertFlowNodes prev u := List.map_id _

theorem upsertFlowEdges_any_true (prev : List FlowEdge) (u : FlowEdge)
    (h : prev.any (fun e => decide (e.id = u.id)) = true) :
    upsertFlowEdges prev u = prev.map (fun e => if e.id = u.id then u else e) := by
  unfold upsertFlowEdges
  rw [if_pos h]

theorem upsertFlowEdges_any_false (prev : List FlowEdge) (u : FlowEdge)
    (h : prev.any (fun e => decide (e.id = u.id)) = false) :
    upsertFlowEdges prev u = prev ++ [u] := by
  unfold upsertFlowEdges
  rw [if_neg (by simp [h])]

theorem upsertFlowEdges_has_id (prev : List FlowEdge) (u : FlowEdge) :
    (upsertFlowEdges prev u).any (fun e => decide (e.id = u.id)) = true := by
  unfold upsertFlowEdges
  by_cases h : prev.any (fun e => decide (e.id = u.id)) = true
  · rw [if_pos h]
    obtain ⟨n, hn, hid⟩ := List.any_eq_true.mp h
    apply List.any_eq_true.mpr
    refine ⟨if n.id = u.id then u else n, List.mem_map_of_mem _ hn, ?_⟩
    rw [if_pos (of_decide_eq_true hid)]
    simp
  · rw [if_neg h]
    apply List.any_eq_true.mpr
    exact ⟨u, by simp, by simp⟩

theorem upsertFlowEdges_fix (prev : List FlowEdge) (u : FlowEdge) :
    ∀ n ∈ upsertFlowEdges prev u, (if n.id = u.id then u else n) = n := by
  intro n hn
  by_cases hid : n.id = u.id
  · rw [if_pos hid]
    unfold upsertFlowEdges at hn
    by_cases h : prev.any (fun m => decide (m.id = u.id)) = true
    · rw [if_pos h] at hn
      obtain ⟨m, _hm, hmn⟩ := List.mem_map.mp hn
      by_cases h2 : m.id = u.id
      · rw [if_pos h2] at hmn
        exact hmn
      · rw [if_neg h2] at hmn
        exact absurd (hmn ▸ hid) h2
    · rw [if_neg h] at hn
      rcases List.mem_append.mp hn with hcase | hcase
      · exact absurd (List.any_eq_true.mpr ⟨n, hcase, decide_eq_true hid⟩) h
      · simp only [List.mem_singleton] at hcase
        rw [hcase]
  · rw [if_neg hid]

theorem upsertFlowEdges_idem (prev : List FlowEdge) (u : FlowEdge) :
    upsertFlowEdges (upsertFlowEdges prev u) u = upsertFlowEdges prev u := by
  rw [upsertFlowEdges_any_true (upsertFlowEdges prev u) u (upsertFlowEdges_has_id prev u)]
  calc (upsertFlowEdges prev u).map (fun e => if e.id = u.id then u else e)
      = (upsertFlowEdges prev u).map id := List.map_congr_left (upsertFlowEdges_fix prev u)
    _ = upsertFlowEdges prev u := List.map_id _

/-! ## Claim theorems -/

/-- Claim C10: for every id absent from the store, deleteNode and
deleteEdge return the success result with the store unchanged — deleting
an absent entity is indistinguishable from a successful delete at the
service interface. -/
theorem claim_C10 (st : Store) (i : String)
    (hn : ∀ n ∈ st.nodes, n.id ≠ i) (he : ∀ e ∈ st.edges, e.id ≠ i) :
    deleteNode st i = (.ok (), st) ∧ deleteEdge st i = (.ok (), st) := by
  have hfilter : st.nodes.filter (fun n => decide (n.id = i)) = [] := by
    apply List.filter_eq_nil_iff.mpr
    intro n hm
    simpa using hn n hm
  have hstart : isStartNode st i = false := by
    unfold isStartNode
    rw [hfilter]
  constructor
  · unfold deleteNode
    rw [hstart]
    have hany : st.nodes.any (fun n => decide (n.id = i) && decide (n.node_type = "start")) = false := by
      apply List.any_eq_false.mpr
      intro n hm
      simp [hn n hm]
    rw [hany]
    have hkeep : st.nodes.filter (fun n => !(decide (n.id = i))) = st.nodes := by
      apply List.filter_eq_self.mpr
      intro n hm
      simp [hn n hm]
    simp [hkeep]
  · unfold deleteEdge
    have hkeep : st.edges.filter (fun e => !(decide (e.id = i))) = st.edges := by
      apply List.filter_eq_self.mpr
      intro e hm
      simp [he e hm]
    simp [hkeep]

/-- Witness for claim C10 at a concrete store holding one node and one
edge, deleting an id that is absent from both tables. -/
theorem claim_C10_witness :
    deleteNode { projects := [], tools := [],
                 nodes := [{ id := "start_P", project_id := "P", title := "Start",
                             prompt := "p", node_type := "start", tool_id := none,
                             position_x := 50, position_y := 50,
                             created_at := 0, updated_at := 0 }],
                 edges := [{ id := "e1", project_id := "P", source_id := "a",
                             target_id := "b", label := "l", prompt := "q",
                             created_at := 0, updated_at := 0 }] } "ghost"
      = (.ok (), { projects := [], tools := [],
                   nodes := [{ id := "start_P", project_id := "P", title := "Start",
                               prompt := "p", node_type := "start", tool_id := none,
                               position_x := 50, position_y := 50,
                               created_at := 0, updated_at := 0 }],
                   edges := [{ id := "e1", project_id := "P", source_id := "a",
                               target_id := "b", label := "l", prompt := "q",
                               created_at := 0, updated_at := 0 }] }) := by
  exact (claim_C10 _ "ghost" (by decide) (by decide)).1

/-- Claim C6: when the supplied node set has no start node, saveFlow fails
with the invariant-violation error, makes no RPC call, and the persisted
store is untouched. -/
theorem claim_C6 (st : Store) (pid : String) (nodes : List NodeInput)
    (edges : List EdgeInput) (now : Nat) (h : ∀ n ∈ nodes, n.node_type ≠ "start") :
    saveFlow st pid nodes edges now =
      { result := .error "Flow must include a start node", store := st, rpcCalls := 0 } := by
  have hstart : hasStartNode nodes = false := by
    apply List.any_eq_false.mpr
    intro n hm
    simp [h n hm]
  unfold saveFlow
  rw [hstart]
  simp

/-- Witness for claim C6: a save of one default-kind node and no edges is
rejected client-side with the store untouched and zero RPC calls. -/
theorem claim_C6_witness :
    saveFlow { projects := [{ id := "P", name := "demo", description := "", updated_at := 0 }],
               tools := [], nodes := [], edges := [] } "P"
        [{ id := "n1", project_id := "P", title := "N", prompt := "p",
           node_type := "default", tool_id := none, position_x := 0, position_y := 0 }] [] 7
      = { result := .error "Flow must include a start node",
          store := { projects := [{ id := "P", name := "demo", description := "",
                                    updated_at := 0 }],
                     tools := [], nodes := [], edges := [] },
          rpcCalls := 0 } := by
  exact claim_C6 _ "P" _ [] 7 (by decide)

/-- Claim C2: the save_flow procedure is atomic. Whenever a call that
passed the start-node check fails (so the failure arose in or after the
delete phase), the store a caller can observe afterwards is exactly the
store from before the call: a subsequent fetch of the project nodes and
edges sees no partial state. -/
theorem claim_C2 (st : Store) (pid : String) (pn : List NodeInput)
    (pe : List EdgeInput) (now : Nat) (e : String)
    (_hstart : hasStartNode pn = true)
    (hfail : (save_flow st pid pn pe now).1 = .error e) :
    (save_flow st pid pn pe now).2 = st
    ∧ fetchNodesByProject (save_flow st pid pn pe now).2 pid none
        = fetchNodesByProject st pid none
    ∧ fetchEdgesByProject (save_flow st pid pn pe now).2 pid none
        = fetchEdgesByProject st pid none := by
  have h2 := save_flow_error_store st pid pn pe now e hfail
  exact ⟨h2, by rw [h2], by rw [h2]⟩

/-- Witness for claim C2: a payload whose two edges share one id passes
the start-node check, survives the delete phase and the node upsert, and
then fails on the duplicate edge insert; the resulting store is the
original one. -/
theorem claim_C2_witness :
    hasStartNode
        [{ id := "start_P", project_id := "P", title := "Start", prompt := "p",
           node_type := "start", tool_id := none, position_x := 50, position_y := 50 }] = true
    ∧ (save_flow
        { projects := [{ id := "P", name := "demo", description := "", updated_at := 0 }],
          tools := [],
          nodes := [{ id := "start_P", project_id := "P", title := "Start", prompt := "p",
                      node_type := "start", tool_id := none, position_x := 50,
                      position_y := 50, created_at := 0, updated_at := 0 }],
          edges := [{ id := "eOld", project_id := "P", source_id := "start_P",
                      target_id := "x", label := "l", prompt := "q",
                      created_at := 0, updated_at := 0 }] } "P"
        [{ id := "start_P", project_id := "P", title := "Start", prompt := "p",
           node_type := "start", tool_id := none, position_x := 50, position_y := 50 }]
        [{ id := "e1", project_id := "P", source_id := "start_P", target_id := "y",
           label := "l", prompt := "q" },
         { id := "e1", project_id := "P", source_id := "start_P", target_id := "z",
           label := "l", prompt := "q" }] 9).2
      = { projects := [{ id := "P", name := "demo", description := "", updated_at := 0 }],
          tools := [],
          nodes := [{ id := "start_P", project_id := "P", title := "Start", prompt := "p",
                      node_type := "start", tool_id := none, position_x := 50,
                      position_y := 50, created_at := 0, updated_at := 0 }],
          edges := [{ id := "eOld", project_id := "P", source_id := "start_P",
                      target_id := "x", label := "l", prompt := "q",
                      created_at := 0, updated_at := 0 }] } := by
  refine ⟨by decide, ?_⟩
  exact (claim_C2 _ "P" _ _ 9
    "duplicate key value violates unique constraint edges_pkey"
    (by decide) (by decide)).1

/-- Claim C5: when a save attempt fails, whether at client-side validation
or at the store, handleSave leaves the dirty flag exactly as it was (an
unsaved-changes marker is never cleared by a failed save), logs the error
produced by saveFlow verbatim, leaves the persisted store untouched, and
performs no retry: the save_flow RPC is invoked at most once per attempt. -/
theorem claim_C5 (st : Store) (pid : String) (nodes : List FlowNode)
    (edges : List FlowEdge) (dirty : Bool) (now : Nat) (e : String)
    (hfail : (saveFlow st pid (nodes.map (formatNode pid))
                  (edges.map (formatEdge pid)) now).result = .error e) :
    handleSave st pid nodes edges dirty now =
      { store := st, dirty := dirty, loggedError := some e,
        rpcCalls := (saveFlow st pid (nodes.map (formatNode pid))
                        (edges.map (formatEdge pid)) now).rpcCalls }
    ∧ (saveFlow st pid (nodes.map (formatNode pid))
          (edges.map (formatEdge pid)) now).rpcCalls ≤ 1 := by
  have hstore := saveFlow_error_store st pid _ _ now e hfail
  constructor
  · unfold handleSave
    simp only [hfail, hstore]
  · exact saveFlow_rpcCalls_le_one st pid _ _ now

/-- Witness for claim C5: a dirty model with no start node fails
validation; the dirty flag stays true, the validation message is logged
verbatim, and no RPC call happens. -/
theorem claim_C5_witness :
    handleSave { projects := [{ id := "P", name := "demo", description := "",
                                updated_at := 0 }],
                 tools := [], nodes := [], edges := [] } "P" [] [] true 5
      = { store := { projects := [{ id := "P", name := "demo", description := "",
                                    updated_at := 0 }],
                     tools := [], nodes := [], edges := [] },
          dirty := true, loggedError := some "Flow must include a start node",
          rpcCalls := 0 } := by
  exact (claim_C5 _ "P" [] [] true 5 "Flow must include a start node" (by decide)).1

/-- Claim C9: applying the same Insert or Update change event twice to the
local Graph Model — node or edge — yields exactly the state obtained by
applying it once. -/
theorem claim_C9 (prevN : List FlowNode) (prevE : List FlowEdge) (r : NodeRow)
    (er : EdgeRow) (fr : FetchResult (List JoinedNode)) :
    handleNodeChange (handleNodeChange prevN (.insert r) fr) (.insert r) fr
        = handleNodeChange prevN (.insert r) fr
    ∧ handleNodeChange (handleNodeChange prevN (.update r) fr) (.update r) fr
        = handleNodeChange prevN (.update r) fr
    ∧ handleEdgeChange (handleEdgeChange prevE (.insert er)) (.insert er)
        = handleEdgeChange prevE (.insert er)
    ∧ handleEdgeChange (handleEdgeChange prevE (.update er)) (.update er)
        = handleEdgeChange prevE (.update er) :=
  ⟨upsertFlowNodes_idem prevN (mkReconNode r fr.data),
   upsertFlowNodes_idem prevN (mkReconNode r fr.data),
   upsertFlowEdges_idem prevE (mkReconEdge er),
   upsertFlowEdges_idem prevE (mkReconEdge er)⟩

/-- Claim C1: the reconciliation handlers apply every change event by
last-writer-wins at entity granularity. On a node Insert or Update whose
id is present locally, every local node with that id is overwritten with
the object built from the incoming payload alone (with the inlined tool
re-resolved from the supplemental fetch result); when the id is absent the
built node is appended. On Delete, exactly the nodes with the pushed id
are removed, and a Delete for an absent id leaves the state unchanged.
The same rules hold for edge events. -/
theorem claim_C1 (prevN : List FlowNode) (prevE : List FlowEdge) (r : NodeRow)
    (er : EdgeRow) (fr : FetchResult (List JoinedNode)) (oldId : String) :
    ((∃ n ∈ prevN, n.id = r.id) →
      handleNodeChange prevN (.insert r) fr
          = prevN.map (fun n => if n.id = r.id then mkReconNode r fr.data else n)
      ∧ handleNodeChange prevN (.update r) fr
          = prevN.map (fun n => if n.id = r.id then mkReconNode r fr.data else n))
    ∧ ((∀ n ∈ prevN, n.id ≠ r.id) →
      handleNodeChange prevN (.insert r) fr = prevN ++ [mkReconNode r fr.data]
      ∧ handleNodeChange prevN (.update r) fr = prevN ++ [mkReconNode r fr.data])
    ∧ (∀ jns jn, fr.data = some jns →
        jns.find? (fun j => decide (j.node.id = r.id)) = some jn →
        (mkReconNode r fr.data).tool = jn.tool)
    ∧ (∀ n, n ∈ handleNodeChange prevN (.delete oldId) fr ↔ n ∈ prevN ∧ n.id ≠ oldId)
    ∧ ((∀ n ∈ prevN, n.id ≠ oldId) → handleNodeChange prevN (.delete oldId) fr = prevN)
    ∧ ((∃ e ∈ prevE, e.id = er.id) →
      handleEdgeChange prevE (.insert er)
          = prevE.map (fun e => if e.id = er.id then mkReconEdge er else e)
      ∧ handleEdgeChange prevE (.update er)
          = prevE.map (fun e => if e.id = er.id then mkReconEdge er else e))
    ∧ ((∀ e ∈ prevE, e.id ≠ er.id) →
      handleEdgeChange prevE (.insert er) = prevE ++ [mkReconEdge er]
      ∧ handleEdgeChange prevE (.update er) = prevE ++ [mkReconEdge er])
    ∧ (∀ e, e ∈ handleEdgeChange prevE (.delete oldId) ↔ e ∈ prevE ∧ e.id ≠ oldId)
    ∧ ((∀ e ∈ prevE, e.id ≠ oldId) → handleEdgeChange prevE (.delete oldId) = prevE) := by
  have hidN : (mkReconNode r fr.data).id = r.id := rfl
  have hidE : (mkReconEdge er).id = er.id := rfl
  refine ⟨?_, ?_, ?_, ?_, ?_, ?_, ?_, ?_, ?_⟩
  · intro ⟨n, hn, hid⟩
    have hany : prevN.any (fun n => decide (n.id = (mkReconNode r fr.data).id)) = true :=
      List.any_eq_true.mpr ⟨n, hn, by rw [hidN]; exact decide_eq_true hid⟩
    constructor <;>
      · show upsertFlowNodes prevN (mkReconNode r fr.data) = _
        rw [upsertFlowNodes_any_true _ _ hany]
        rfl
  · intro hall
    have hany : prevN.any (fun n => decide (n.id = (mkReconNode r fr.data).id)) = false := by
      apply List.any_eq_false.mpr
      intro n hn
      simp [hidN, hall n hn]
    constructor <;>
      · show upsertFlowNodes prevN (mkReconNode r fr.data) = _
        rw [upsertFlowNodes_any_false _ _ hany]
  · intro jns jn hdata hfind
    unfold mkReconNode
    rw [hdata]
    simp [hfind]
  · intro n
    show n ∈ prevN.filter (fun n => !(decide (n.id = oldId))) ↔ _
    rw [List.mem_filter]
    simp
  · intro hall
    show prevN.filter (fun n => !(decide (n.id = oldId))) = prevN
    apply List.filter_eq_self.mpr
    intro n hn
    simp [hall n hn]
  · intro ⟨e, he, hid⟩
    have hany : prevE.any (fun e => decide (e.id = (mkReconEdge er).id)) = true :=
      List.any_eq_true.mpr ⟨e, he, by rw [hidE]; exact decide_eq_true hid⟩
    constructor <;>
      · show upsertFlowEdges prevE (mkReconEdge er) = _
        rw [upsertFlowEdges_any_true _ _ hany]
        rfl
  · intro hall
    have hany : prevE.any (fun e => decide (e.id = (mkReconEdge er).id)) = false := by
      apply List.any_eq_false.mpr
      intro e he
      simp [hidE, hall e he]
    constructor <;>
      · show upsertFlowEdges prevE (mkReconEdge er) = _
        rw [upsertFlowEdges_any_false _ _ hany]
  · intro e
    show e ∈ prevE.filter (fun e => !(decide (e.id = oldId))) ↔ _
    rw [List.mem_filter]
    simp
  · intro hall
    show prevE.filter (fun e => !(decide (e.id = oldId))) = prevE
    apply List.filter_eq_self.mpr
    intro e he
    simp [hall e he]



/-- A witness payload row used by the concrete reconciliation scenarios. -/
def wNodeRow : NodeRow :=
  { id := "n1", project_id := "P", title := "N1", prompt := "p",
    node_type := "tool", tool_id := some "t1", position_x := 3, position_y := 4,
    created_at := 0, updated_at := 0 }

/-- Witness for claim C1: a concrete upsert over a one-node model whose id
matches the payload, a concrete append, and a concrete no-op delete, for
nodes and for edges. -/
theorem claim_C1_witness :
    handleNodeChange [mkReconNode wNodeRow none] (.insert wNodeRow)
        { data := none, error := none }
      = [mkReconNode wNodeRow none]
    ∧ handleNodeChange [] (.insert wNodeRow) { data := none, error := none }
      = [mkReconNode wNodeRow none]
    ∧ handleNodeChange [mkReconNode wNodeRow none] (.delete "ghost")
        { data := none, error := none }
      = [mkReconNode wNodeRow none] := by
  have h := claim_C1 [mkReconNode wNodeRow none] [] wNodeRow
    { id := "e1", project_id := "P", source_id := "a", target_id := "b",
      label := "l", prompt := "q", created_at := 0, updated_at := 0 }
    { data := none, error := none } "ghost"
  refine ⟨?_, ?_, ?_⟩
  · have h1 := (h.1 ⟨mkReconNode wNodeRow none, by decide⟩).1
    rw [h1]
    decide
  · exact ((claim_C1 [] [] wNodeRow
      { id := "e1", project_id := "P", source_id := "a", target_id := "b",
        label := "l", prompt := "q", created_at := 0, updated_at := 0 }
      { data := none, error := none } "ghost").2.1 (by decide)).1
  · exact h.2.2.2.2.1 (by decide)

/-- Claim C8 counterexample: with the supplemental fetch failing (a tagged
transport error, no data), the node handler still merges the incoming
payload into the model — the local state is NOT left unchanged, refuting
the claim that a failed background fetch leaves state untouched. -/
theorem claim_C8_counterexample :
    handleNodeChange [] (.insert wNodeRow)
        { data := none, error := some "TransportFailure" } ≠ [] := by
  decide

/-- Claim C8 (amended): a node Insert/Update event whose supplemental tool
fetch fails never throws across the reconciliation boundary — the store
adapter hands the handler a tagged result, and the handler is a total
function of it — but it does not leave the local state unchanged: it
applies the incoming payload exactly as if the fetch had returned no
matching node, with the inlined tool left unresolved. No logging happens
in the handler itself. -/
theorem claim_C8 (prev : List FlowNode) (r : NodeRow) (msg : String) :
    handleNodeChange prev (.insert r) { data := none, error := some msg }
        = handleNodeChange prev (.insert r) { data := some [], error := none }
    ∧ handleNodeChange prev (.update r) { data := none, error := some msg }
        = handleNodeChange prev (.update r) { data := some [], error := none }
    ∧ (mkReconNode r none).tool = none := by
  exact ⟨rfl, rfl, rfl⟩

/-- The concrete store of the updateNode scenarios: one project with its
start node. -/
def stC7 : Store :=
  { projects := [{ id := "P", name := "demo", description := "", updated_at := 0 }],
    tools := [],
    nodes := [{ id := "start_P", project_id := "P", title := "Start", prompt := "p",
                node_type := "start", tool_id := none, position_x := 50,
                position_y := 50, created_at := 0, updated_at := 0 }],
    edges := [] }

/-- Claim C7 counterexample: updateNode guards node_type with JS
truthiness, so updating the start node with the falsy value node_type = ""
is NOT dropped: the stored kind becomes "" instead of staying "start",
refuting the claim for this attempt to change node_type. -/
theorem claim_C7_counterexample :
    isStartNode stC7 "start_P" = true
    ∧ ((updateNode stC7 "start_P"
          { node_type := some "", title := some "Renamed" }).2.nodes.map
        (fun n => n.node_type)) = [""] := by
  decide

theorem updateNode_drop (st : Store) (nodeId : String) (u : NodeUpdates)
    (h : (truthyStr u.node_type && isStartNode st nodeId) = true) :
    updateNode st nodeId u = updateNode st nodeId { u with node_type := none } := by
  unfold updateNode
  rw [if_pos h]
  have hfalse : (truthyStr ({ u with node_type := none } : NodeUpdates).node_type
      && isStartNode st nodeId) = false := by
    simp [truthyStr]
  rw [if_neg (by simp [hfalse])]

/-- Claim C7 (amended): an update to the Start node whose node_type field
is a truthy value (present and non-empty, e.g. "tool") has that field
silently dropped — the call behaves exactly like the same update without
node_type, the stored kind stays "start", and the other supplied fields
(e.g. title) are applied. (The counterexample shows the falsy value ""
escapes the truthiness guard and does overwrite the kind.) -/
theorem claim_C7 (st : Store) (nodeId : String) (u : NodeUpdates) (n0 : NodeRow) (s : String)
    (hfilter : st.nodes.filter (fun n => decide (n.id = nodeId)) = [n0])
    (hstart : n0.node_type = "start")
    (hnt : u.node_type = some s) (hs : s ≠ "") :
    updateNode st nodeId u = updateNode st nodeId { u with node_type := none }
    ∧ (updateNode st nodeId u).1 = .ok (applyUpdates n0 { u with node_type := none })
    ∧ (applyUpdates n0 { u with node_type := none }).node_type = "start"
    ∧ (applyUpdates n0 { u with node_type := none }).title = u.title.getD n0.title := by
  have hstart2 : isStartNode st nodeId = true := by
    unfold isStartNode
    rw [hfilter]
    simp [hstart]
  have htruthy : truthyStr u.node_type = true := by
    rw [hnt]
    simp [truthyStr, hs]
  have hdrop := updateNode_drop st nodeId u (by rw [htruthy, hstart2]; rfl)
  refine ⟨hdrop, ?_, ?_, ?_⟩
  · rw [hdrop]
    unfold updateNode
    have hfalse : (truthyStr ({ u with node_type := none } : NodeUpdates).node_type
        && isStartNode st nodeId) = false := by
      simp [truthyStr]
    rw [if_neg (by simp [hfalse])]
    simp only [hfilter]
  · unfold applyUpdates
    simp [hstart]
  · rfl

/-- Witness for claim C7: on the concrete store, an update carrying the
truthy node_type "tool" plus a title leaves the kind "start" and applies
the title. -/
theorem claim_C7_witness :
    updateNode stC7 "start_P" { node_type := some "tool", title := some "Renamed" }
        = updateNode stC7 "start_P" { title := some "Renamed" }
    ∧ (applyUpdates
        { id := "start_P", project_id := "P", title := "Start", prompt := "p",
          node_type := "start", tool_id := none, position_x := 50, position_y := 50,
          created_at := 0, updated_at := 0 }
        { title := some "Renamed" }).node_type = "start" := by
  have h := claim_C7 stC7 "start_P"
    { node_type := some "tool", title := some "Renamed" }
    { id := "start_P", project_id := "P", title := "Start", prompt := "p",
      node_type := "start", tool_id := none, position_x := 50, position_y := 50,
      created_at := 0, updated_at := 0 }
    "tool" (by decide) (by decide) rfl (by decide)
  exact ⟨h.1, h.2.2.1⟩

theorem foldlM_ok_of_all {α β : Type} (f : β → α → Except String β) (P : β → Prop)
    (us : List α) :
    (∀ L u L2, u ∈ us → P L → f L u = .ok L2 → P L2) →
    ∀ L L2, P L → List.foldlM f L us = .ok L2 → P L2 := by
  induction us with
  | nil =>
    intro _ L L2 hP h
    rw [List.foldlM_nil] at h
    exact (Except.ok.inj h) ▸ hP
  | cons u us ih =>
    intro hstep L L2 hP h
    rw [List.foldlM_cons] at h
    cases hfu : f L u with
    | error e =>
      rw [hfu] at h
      exact Except.noConfusion h
    | ok L1 =>
      rw [hfu] at h
      exact ih (fun L3 u2 L4 hm => hstep L3 u2 L4 (List.mem_cons_of_mem _ hm)) L1 L2
        (hstep L u L1 (List.mem_cons_self _ _) hP hfu) h

theorem save_flow_ok_run (st : Store) (pid : String) (pn : List NodeInput)
    (pe : List EdgeInput) (now : Nat) (st2 : Store)
    (hok : save_flow st pid pn pe now = (.ok (), st2)) :
    save_flow_run st pid pn pe now = .ok st2 := by
  unfold save_flow at hok
  cases hrun : save_flow_run st pid pn pe now with
  | ok st3 =>
    rw [hrun] at hok
    simp only [Prod.mk.injEq] at hok
    rw [hok.2]
  | error e =>
    rw [hrun] at hok
    simp at hok

theorem save_flow_run_ok_parts (st : Store) (pid : String) (pn : List NodeInput)
    (pe : List EdgeInput) (now : Nat) (st2 : Store)
    (h : save_flow_run st pid pn pe now = .ok st2) :
    ∃ nodes2 edges2,
      pn.foldlM (nodeUpsertStep st now)
          (st.nodes.filter
            (fun n => !(decide (n.project_id = pid) && decide (n.node_type ≠ "start"))))
        = .ok nodes2
      ∧ pe.foldlM (edgeInsertStep st now)
          (st.edges.filter (fun e => !(decide (e.project_id = pid)))) = .ok edges2
      ∧ st2.nodes = nodes2 ∧ st2.edges = edges2 := by
  unfold save_flow_run at h
  split at h
  · exact Except.noConfusion h
  split at h
  · exact Except.noConfusion h
  cases hn : pn.foldlM (nodeUpsertStep st now)
      (st.nodes.filter
        (fun n => !(decide (n.project_id = pid) && decide (n.node_type ≠ "start")))) with
  | error e =>
    rw [hn] at h
    exact Except.noConfusion h
  | ok nodes2 =>
    rw [hn] at h
    cases he : pe.foldlM (edgeInsertStep st now)
        (st.edges.filter (fun e => !(decide (e.project_id = pid)))) with
    | error e =>
      rw [he] at h
      exact Except.noConfusion h
    | ok edges2 =>
      rw [he] at h
      refine ⟨nodes2, edges2, rfl, rfl, ?_, ?_⟩ <;> rw [← Except.ok.inj h]

/-- Claim C4 counterexample: a successful save_flow call whose payload
carries the start-node id with node_type "default" (and a fresh id with
node_type "start", satisfying the existence check) changes the Start node
kind through the upsert phase — the ON CONFLICT update writes
node_type = EXCLUDED.node_type, so the kind is NOT unchanged. -/
theorem claim_C4_counterexample :
    (save_flow stC7 "P"
        [{ id := "start_P", project_id := "P", title := "Start", prompt := "p",
           node_type := "default", tool_id := none, position_x := 1, position_y := 2 },
         { id := "x", project_id := "P", title := "X", prompt := "p",
           node_type := "start", tool_id := none, position_x := 0, position_y := 0 }]
        [] 5).1 = .ok ()
    ∧ ((save_flow stC7 "P"
        [{ id := "start_P", project_id := "P", title := "Start", prompt := "p",
           node_type := "default", tool_id := none, position_x := 1, position_y := 2 },
         { id := "x", project_id := "P", title := "X", prompt := "p",
           node_type := "start", tool_id := none, position_x := 0, position_y := 0 }]
        [] 5).2.nodes.map (fun n => (n.id, n.node_type)))
      = [("start_P", "default"), ("x", "start")] := by
  constructor <;> decide

/-- Claim C4 (amended): for every successful save_flow call, a start-kind
node of the project is never deleted by the delete phase and survives into
the result with its identity (id, project, creation stamp) intact — this
holds unconditionally, demoting payloads included, because the delete
filter keeps start rows and the DO UPDATE SET list never writes id,
project_id or created_at. Its kind is unchanged provided every payload
entry carrying its id supplies node_type "start" (as the handleSave
serialization of an unedited Start node does); without that proviso the
upsert writes the supplied node_type verbatim, as the counterexample
shows. -/
theorem claim_C4 (st : Store) (pid : String) (pn : List NodeInput) (pe : List EdgeInput)
    (now : Nat) (st2 : Store) (s : NodeRow)
    (hmem : s ∈ st.nodes) (hkind : s.node_type = "start") (hproj : s.project_id = pid)
    (hok : save_flow st pid pn pe now = (.ok (), st2)) :
    (∃ s2 ∈ st2.nodes, s2.id = s.id ∧ s2.project_id = pid ∧ s2.created_at = s.created_at)
    ∧ ((∀ u ∈ pn, u.id = s.id → u.node_type = "start") →
      ∃ s2 ∈ st2.nodes, s2.id = s.id ∧ s2.node_type = "start" ∧ s2.project_id = pid
        ∧ s2.created_at = s.created_at) := by
  have hrun := save_flow_ok_run st pid pn pe now st2 hok
  obtain ⟨nodes2, edges2, hn, _he, hst2n, _hst2e⟩ :=
    save_flow_run_ok_parts st pid pn pe now st2 hrun
  have hmem0 : s ∈ st.nodes.filter
      (fun n => !(decide (n.project_id = pid) && decide (n.node_type ≠ "start"))) := by
    rw [List.mem_filter]
    refine ⟨hmem, ?_⟩
    simp [hkind]
  constructor
  · -- identity survival on every successful call, demoting payloads included
    have hstep1 : ∀ L u L2, u ∈ pn →
        (∃ s2 ∈ L, s2.id = s.id ∧ s2.project_id = pid ∧ s2.created_at = s.created_at) →
        nodeUpsertStep st now L u = .ok L2 →
        ∃ s2 ∈ L2, s2.id = s.id ∧ s2.project_id = pid ∧ s2.created_at = s.created_at := by
      intro L u L2 _hu hP hstep
      obtain ⟨s2, hs2mem, hs2id, hs2proj, hs2created⟩ := hP
      unfold nodeUpsertStep at hstep
      split at hstep
      · split at hstep
        · -- conflict branch: the SET list leaves id, project_id, created_at alone
          refine ⟨if s2.id = u.id then upsertRowUpdate now u s2 else s2, ?_, ?_⟩
          · rw [← Except.ok.inj hstep]
            exact List.mem_map_of_mem _ hs2mem
          · by_cases hid : s2.id = u.id
            · rw [if_pos hid]
              exact ⟨hs2id, hs2proj, hs2created⟩
            · rw [if_neg hid]
              exact ⟨hs2id, hs2proj, hs2created⟩
        · split at hstep
          · refine ⟨s2, ?_, hs2id, hs2proj, hs2created⟩
            rw [← Except.ok.inj hstep]
            exact List.mem_append_left _ hs2mem
          · exact Except.noConfusion hstep
      · exact Except.noConfusion hstep
    have hpres := foldlM_ok_of_all (nodeUpsertStep st now)
      (fun L => ∃ s2 ∈ L, s2.id = s.id ∧ s2.project_id = pid
        ∧ s2.created_at = s.created_at)
      pn hstep1 _ nodes2 ⟨s, hmem0, rfl, hproj, rfl⟩ hn
    rw [hst2n]
    exact hpres
  · intro hpayload
    have hstep2 : ∀ L u L2, u ∈ pn →
        (∃ s2 ∈ L, s2.id = s.id ∧ s2.node_type = "start" ∧ s2.project_id = pid
          ∧ s2.created_at = s.created_at) →
        nodeUpsertStep st now L u = .ok L2 →
        ∃ s2 ∈ L2, s2.id = s.id ∧ s2.node_type = "start" ∧ s2.project_id = pid
          ∧ s2.created_at = s.created_at := by
      intro L u L2 hu hP hstep
      obtain ⟨s2, hs2mem, hs2id, hs2kind, hs2proj, hs2created⟩ := hP
      unfold nodeUpsertStep at hstep
      split at hstep
      · split at hstep
        · -- conflict branch: L2 = L.map (update at id)
          refine ⟨if s2.id = u.id then upsertRowUpdate now u s2 else s2, ?_, ?_⟩
          · rw [← Except.ok.inj hstep]
            exact List.mem_map_of_mem _ hs2mem
          · by_cases hid : s2.id = u.id
            · rw [if_pos hid]
              have hu2 : u.node_type = "start" := hpayload u hu (by rw [← hid, hs2id])
              exact ⟨hs2id, hu2, hs2proj, hs2created⟩
            · rw [if_neg hid]
              exact ⟨hs2id, hs2kind, hs2proj, hs2created⟩
        · split at hstep
          · -- insert branch: L2 = L ++ [new row]
            refine ⟨s2, ?_, hs2id, hs2kind, hs2proj, hs2created⟩
            rw [← Except.ok.inj hstep]
            exact List.mem_append_left _ hs2mem
          · exact Except.noConfusion hstep
      · exact Except.noConfusion hstep
    have hpres := foldlM_ok_of_all (nodeUpsertStep st now)
      (fun L => ∃ s2 ∈ L, s2.id = s.id ∧ s2.node_type = "start" ∧ s2.project_id = pid
        ∧ s2.created_at = s.created_at)
      pn hstep2 _ nodes2 ⟨s, hmem0, rfl, hkind, hproj, rfl⟩ hn
    rw [hst2n]
    exact hpres

/-- The payload of the C4 witness save: the start node (kind start, edited
title) plus one fresh default node. -/
def pnC4 : List NodeInput :=
  [{ id := "start_P", project_id := "P", title := "Start2", prompt := "p2",
     node_type := "start", tool_id := none, position_x := 7, position_y := 8 },
   { id := "n1", project_id := "P", title := "N1", prompt := "p",
     node_type := "default", tool_id := none, position_x := 0, position_y := 0 }]

/-- Witness for claim C4: the start row survives with its identity intact
even through the demoting payload of the counterexample save, and through
the well-formed pnC4 save it additionally keeps kind start. -/
theorem claim_C4_witness :
    (∃ s2 ∈ (save_flow stC7 "P"
        [{ id := "start_P", project_id := "P", title := "Start", prompt := "p",
           node_type := "default", tool_id := none, position_x := 1, position_y := 2 },
         { id := "x", project_id := "P", title := "X", prompt := "p",
           node_type := "start", tool_id := none, position_x := 0, position_y := 0 }]
        [] 5).2.nodes,
      s2.id = "start_P" ∧ s2.project_id = "P" ∧ s2.created_at = 0)
    ∧ ∃ s2 ∈ (save_flow stC7 "P" pnC4 [] 3).2.nodes,
        s2.id = "start_P" ∧ s2.node_type = "start" ∧ s2.project_id = "P"
        ∧ s2.created_at = 0 := by
  constructor
  · exact (claim_C4 stC7 "P"
      [{ id := "start_P", project_id := "P", title := "Start", prompt := "p",
         node_type := "default", tool_id := none, position_x := 1, position_y := 2 },
       { id := "x", project_id := "P", title := "X", prompt := "p",
         node_type := "start", tool_id := none, position_x := 0, position_y := 0 }]
      [] 5
      (save_flow stC7 "P"
        [{ id := "start_P", project_id := "P", title := "Start", prompt := "p",
           node_type := "default", tool_id := none, position_x := 1, position_y := 2 },
         { id := "x", project_id := "P", title := "X", prompt := "p",
           node_type := "start", tool_id := none, position_x := 0, position_y := 0 }]
        [] 5).2
      { id := "start_P", project_id := "P", title := "Start", prompt := "p",
        node_type := "start", tool_id := none, position_x := 50, position_y := 50,
        created_at := 0, updated_at := 0 }
      (by decide) rfl rfl (by decide)).1
  · exact (claim_C4 stC7 "P" pnC4 [] 3 (save_flow stC7 "P" pnC4 [] 3).2
      { id := "start_P", project_id := "P", title := "Start", prompt := "p",
        node_type := "start", tool_id := none, position_x := 50, position_y := 50,
        created_at := 0, updated_at := 0 }
      (by decide) rfl rfl (by decide)).2 (by decide)

/-- The rows counted by the start-node invariant of a project. -/
def isPidStart (pid : String) (n : NodeRow) : Bool :=
  decide (n.project_id = pid) && decide (n.node_type = "start")

/-- Claim C3 counterexample: a successful save_flow call whose payload
carries a start-kind node under a fresh id leaves the project with TWO
start nodes — the procedure only checks that some payload node has kind
start, it does not enforce uniqueness, so "exactly one start node after
every successful replaceGraph" fails. -/
theorem claim_C3_counterexample :
    (save_flow stC7 "P"
        [{ id := "n1", project_id := "P", title := "N1", prompt := "p",
           node_type := "start", tool_id := none, position_x := 0, position_y := 0 }]
        [] 5).1 = .ok ()
    ∧ ((save_flow stC7 "P"
        [{ id := "n1", project_id := "P", title := "N1", prompt := "p",
           node_type := "start", tool_id := none, position_x := 0, position_y := 0 }]
        [] 5).2.nodes.countP (isPidStart "P")) = 2 := by
  constructor <;> decide


theorem nodeUpsertStep_preserves_start (st : Store) (pid : String) (now : Nat)
    (u : NodeInput) (hu : u.node_type = "start" ↔ u.id = "start_" ++ pid)
    (L L2 : List NodeRow)
    (hJ1 : L.countP (isPidStart pid) = 1)
    (hJ2 : ∀ n ∈ L, n.id = "start_" ++ pid ↔ isPidStart pid n = true)
    (hstep : nodeUpsertStep st now L u = .ok L2) :
    L2.countP (isPidStart pid) = 1
    ∧ ∀ n ∈ L2, n.id = "start_" ++ pid ↔ isPidStart pid n = true := by
  unfold nodeUpsertStep at hstep
  by_cases htool : toolExists st u.tool_id = true
  · rw [if_pos htool] at hstep
    by_cases hany : L.any (fun n => decide (n.id = u.id)) = true
    · rw [if_pos hany] at hstep
      have hL2 : L2 = L.map (fun n => if n.id = u.id then upsertRowUpdate now u n else n) :=
        (Except.ok.inj hstep).symm
      subst hL2
      have hpoint : ∀ n ∈ L,
          isPidStart pid (if n.id = u.id then upsertRowUpdate now u n else n)
            = isPidStart pid n := by
        intro n hn
        by_cases hnid : n.id = u.id
        · rw [if_pos hnid]
          by_cases hupid : u.id = "start_" ++ pid
          · have hunt : u.node_type = "start" := hu.mpr hupid
            have hnp : isPidStart pid n = true := (hJ2 n hn).mp (hnid.trans hupid)
            have hparts : n.project_id = pid ∧ n.node_type = "start" := by
              have h2 := hnp
              unfold isPidStart at h2
              simpa using h2
            unfold isPidStart upsertRowUpdate
            simp [hparts.1, hparts.2, hunt]
          · have hunt : u.node_type ≠ "start" := fun hc => hupid (hu.mp hc)
            have hnp : isPidStart pid n = false := by
              cases hcase : isPidStart pid n with
              | false => rfl
              | true =>
                have : u.id = "start_" ++ pid := by
                  rw [← hnid]
                  exact (hJ2 n hn).mpr hcase
                exact absurd this hupid
            rw [hnp]
            unfold isPidStart upsertRowUpdate
            simp [hunt]
        · rw [if_neg hnid]
      constructor
      · rw [List.countP_map]
        calc L.countP
              (isPidStart pid ∘ fun n => if n.id = u.id then upsertRowUpdate now u n else n)
            = L.countP (isPidStart pid) :=
              List.countP_congr (fun n hn => by
                simp only [Function.comp_apply, hpoint n hn])
          _ = 1 := hJ1
      · intro n2 hn2
        obtain ⟨n, hn, hfn⟩ := List.mem_map.mp hn2
        have hid : n2.id = n.id := by
          rw [← hfn]
          by_cases hnid : n.id = u.id
          · rw [if_pos hnid]
            rfl
          · rw [if_neg hnid]
        rw [hid, ← hfn, hpoint n hn]
        exact hJ2 n hn
    · rw [if_neg hany] at hstep
      by_cases hpr : projectExists st u.project_id = true
      · rw [if_pos hpr] at hstep
        have hL2 : L2 = L ++ [upsertRowInsert now u] := (Except.ok.inj hstep).symm
        subst hL2
        have hex : ∃ n0 ∈ L, isPidStart pid n0 = true :=
          List.countP_pos_iff.mp (by rw [hJ1]; exact Nat.one_pos)
        obtain ⟨n0, hn0, hp0⟩ := hex
        have hid0 : n0.id = "start_" ++ pid := (hJ2 n0 hn0).mpr hp0
        have huid : u.id ≠ "start_" ++ pid := by
          intro hc
          exact hany (List.any_eq_true.mpr
            ⟨n0, hn0, decide_eq_true (hid0.trans hc.symm)⟩)
        have hunt : u.node_type ≠ "start" := fun hc => huid (hu.mp hc)
        have hnew : isPidStart pid (upsertRowInsert now u) = false := by
          unfold isPidStart upsertRowInsert
          simp [hunt]
        constructor
        · rw [List.countP_append, hJ1]
          simp [hnew]
        · intro n2 hn2
          rcases List.mem_append.mp hn2 with h | h
          · exact hJ2 n2 h
          · simp only [List.mem_singleton] at h
            subst h
            constructor
            · intro hc
              exact absurd hc huid
            · intro hc
              rw [hnew] at hc
              exact Bool.noConfusion hc
      · rw [if_neg hpr] at hstep
        exact Except.noConfusion hstep
  · rw [if_neg htool] at hstep
    exact Except.noConfusion hstep

/-- Claim C3 (amended): (a) project creation installs, via the AFTER
INSERT trigger, exactly one node for the fresh project — the start node
with id start_<projectId>, kind start, position (50,50). (b) A successful
save_flow preserves the invariant "exactly one start node of the project,
its id start_<projectId>" provided the payload marks kind start exactly
on the entry with that id (which is what the UI save path submits);
save_flow itself only checks that some payload node has kind start, so
without the proviso a successful call can install a second start node, as
the counterexample shows. -/
theorem claim_C3 :
    (∀ (st : Store) (p : ProjectRow) (now : Nat) (st2 : Store),
      (∀ n ∈ st.nodes, n.project_id ≠ p.id) →
      createProject st p now = .ok st2 →
      st2.nodes.filter (fun n => decide (n.project_id = p.id))
          = [create_start_node_for_project p.id now]
      ∧ (create_start_node_for_project p.id now).id = "start_" ++ p.id
      ∧ (create_start_node_for_project p.id now).node_type = "start"
      ∧ (create_start_node_for_project p.id now).position_x = 50
      ∧ (create_start_node_for_project p.id now).position_y = 50)
    ∧ (∀ (st : Store) (pid : String) (pn : List NodeInput) (pe : List EdgeInput)
        (now : Nat) (st2 : Store),
      st.nodes.countP (isPidStart pid) = 1 →
      (∀ n ∈ st.nodes, n.id = "start_" ++ pid ↔ isPidStart pid n = true) →
      (∀ u ∈ pn, u.node_type = "start" ↔ u.id = "start_" ++ pid) →
      save_flow st pid pn pe now = (.ok (), st2) →
      ∃ s2, st2.nodes.filter (isPidStart pid) = [s2] ∧ s2.id = "start_" ++ pid) := by
  constructor
  · intro st p now st2 hfree hok
    unfold createProject at hok
    split at hok
    · exact Except.noConfusion hok
    split at hok
    · exact Except.noConfusion hok
    have hst2 := (Except.ok.inj hok).symm
    subst hst2
    refine ⟨?_, rfl, rfl, rfl, rfl⟩
    show (st.nodes ++ [create_start_node_for_project p.id now]).filter
        (fun n => decide (n.project_id = p.id)) = _
    rw [List.filter_append]
    have h1 : st.nodes.filter (fun n => decide (n.project_id = p.id)) = [] :=
      List.filter_eq_nil_iff.mpr (fun n hn => by simp [hfree n hn])
    rw [h1]
    simp [create_start_node_for_project]
  · intro st pid pn pe now st2 hJ1 hJ2 hu hok
    have hrun := save_flow_ok_run st pid pn pe now st2 hok
    obtain ⟨nodes2, edges2, hn, _he, hst2n, _hst2e⟩ :=
      save_flow_run_ok_parts st pid pn pe now st2 hrun
    have hd1 : (st.nodes.filter
        (fun n => !(decide (n.project_id = pid) && decide (n.node_type ≠ "start")))).countP
          (isPidStart pid) = 1 := by
      rw [List.countP_filter]
      calc st.nodes.countP
            (fun n => isPidStart pid n
              && !(decide (n.project_id = pid) && decide (n.node_type ≠ "start")))
          = st.nodes.countP (isPidStart pid) := by
            apply List.countP_congr
            intro n _hn
            constructor
            · intro h2
              simp only [Bool.and_eq_true] at h2
              exact h2.1
            · intro h2
              have hkind : n.node_type = "start" := by
                have h3 := h2
                unfold isPidStart at h3
                simp only [Bool.and_eq_true, decide_eq_true_eq] at h3
                exact h3.2
              simp [h2, hkind]
        _ = 1 := hJ1
    have hd2 : ∀ n ∈ st.nodes.filter
        (fun n => !(decide (n.project_id = pid) && decide (n.node_type ≠ "start"))),
        n.id = "start_" ++ pid ↔ isPidStart pid n = true :=
      fun n hn => hJ2 n (List.mem_filter.mp hn).1
    have hfold := foldlM_ok_of_all (nodeUpsertStep st now)
      (fun L => L.countP (isPidStart pid) = 1
        ∧ ∀ n ∈ L, n.id = "start_" ++ pid ↔ isPidStart pid n = true)
      pn
      (fun L u2 L2 hu2 hP hstep =>
        nodeUpsertStep_preserves_start st pid now u2 (hu u2 hu2) L L2 hP.1 hP.2 hstep)
      _ nodes2 ⟨hd1, hd2⟩ hn
    have hlen : (nodes2.filter (isPidStart pid)).length = 1 := by
      rw [← List.countP_eq_length_filter]
      exact hfold.1
    obtain ⟨s2, hs2⟩ := List.length_eq_one.mp hlen
    refine ⟨s2, by rw [hst2n]; exact hs2, ?_⟩
    have hs2mem : s2 ∈ nodes2.filter (isPidStart pid) := by
      rw [hs2]
      exact List.mem_singleton.mpr rfl
    have hparts := List.mem_filter.mp hs2mem
    exact (hfold.2 s2 hparts.1).mpr hparts.2

/-- Witness for claim C3: creation on an empty store installs exactly the
start node of the new project, and the concrete witness save of pnC4 over
the base store preserves the single-start-node invariant. -/
theorem claim_C3_witness :
    (({ projects := [{ id := "P", name := "demo", description := "", updated_at := 0 }],
        tools := [], nodes := [create_start_node_for_project "P" 0],
        edges := [] } : Store).nodes.filter
        (fun n => decide (n.project_id = "P")) = [create_start_node_for_project "P" 0]
      ∧ (create_start_node_for_project "P" 0).id = "start_" ++ "P"
      ∧ (create_start_node_for_project "P" 0).node_type = "start"
      ∧ (create_start_node_for_project "P" 0).position_x = 50
      ∧ (create_start_node_for_project "P" 0).position_y = 50)
    ∧ ∃ s2, ((save_flow stC7 "P" pnC4 [] 3).2.nodes.filter (isPidStart "P")) = [s2]
        ∧ s2.id = "start_" ++ "P" := by
  constructor
  · exact claim_C3.1 { projects := [], tools := [], nodes := [], edges := [] }
      { id := "P", name := "demo", description := "", updated_at := 0 } 0
      { projects := [{ id := "P", name := "demo", description := "", updated_at := 0 }],
        tools := [], nodes := [create_start_node_for_project "P" 0], edges := [] }
      (fun n hn => absurd hn (List.not_mem_nil n)) (by decide)
  · exact claim_C3.2 stC7 "P" pnC4 [] 3 (save_flow stC7 "P" pnC4 [] 3).2
      (by decide) (by decide) (by decide) (by decide)
